import Mathlib

/-!
Verification of the Grafana dashboard batch-export tool
(`export-grafana-dashboards.py`).

The script is shallowly embedded: the HTTP layer is an oracle (a function
from the attempt index to an optional parsed JSON value for the retry
loop, and a record of resolved endpoint results for the orchestration
layer), the filesystem is a pair of lists (directories and files, each
path a list of components), and every stateful method is a pure function
threading that state.  `none` in an oracle models a
`requests.exceptions.RequestException` raised (and caught) by the call;
`none` as a result of a filesystem step models an uncaught `OSError`
(e.g. `open` on a path whose parent directory does not exist), which in
the script would propagate out and abort the run.
-/

namespace GrafanaExporter

/-- Strings are modelled as lists of characters (Python `str`). -/
abbrev Str := List Char

/-- Filesystem paths as lists of components, relative to an implicit root. -/
abbrev FsPath := List Str

/-! ## JSON values

The script never inspects the inner structure of the JSON bodies it
moves around; it only needs (a) Python truthiness (empty vs non-empty)
and (b) value equality (for "persisted verbatim").  Arrays and objects
therefore carry atomic elements, which is enough for every claim. -/

inductive JsonAtom where
  | null
  | bool (b : Bool)
  | num (n : Int)
  | str (s : Str)
deriving DecidableEq

inductive Json where
  | atom (a : JsonAtom)
  | arr (elems : List JsonAtom)
  | obj (fields : List (Str × JsonAtom))
deriving DecidableEq

/-- Python truthiness of a JSON value (`if datasources:`, `if user_info:`). -/
def jsonTruthy : Json → Bool
  | .atom .null => false
  | .atom (.bool b) => b
  | .atom (.num n) => decide (n ≠ 0)
  | .atom (.str s) => decide (s ≠ [])
  | .arr elems => decide (elems ≠ [])
  | .obj fields => decide (fields ≠ [])

/-! ## `api_request` (lines 48-70)

```
for attempt in range(retries):
    try:
        ... return response.json()
    except requests.exceptions.RequestException as e:
        if attempt == retries - 1:
            return None
        time.sleep(2 ** attempt)
return None
```

`call attempt` is the outcome of the HTTP call on that attempt:
`some v` for a parsed JSON body with a success status, `none` for a
raised-and-caught `RequestException` (network error or
`raise_for_status`).  The second component of the result collects the
`time.sleep` durations, in order. -/

def api_request_loop {α : Type} (call : Nat → Option α) (attempt : Nat) :
    Nat → Option α × List Nat
  | 0 => (none, [])
  | remaining + 1 =>
    match call attempt with
    | some v => (some v, [])
    | none =>
      match remaining with
      | 0 => (none, [])
      | r + 1 =>
        let rest := api_request_loop call (attempt + 1) (r + 1)
        (rest.1, 2 ^ attempt :: rest.2)

/-- `api_request` with a given retry budget (the script's default is 3). -/
def api_request {α : Type} (call : Nat → Option α) (retries : Nat) :
    Option α × List Nat :=
  api_request_loop call 0 retries

/-! ## `safe_filename` (lines 72-79) -/

/-- The characters replaced by `re.sub(r'[<>:"/\\|?*]', '_', name)`. -/
def badChars : List Char := ['<', '>', ':', '"', '/', '\\', '|', '?', '*']

def safe_filename (name : Str) : Str :=
  let safe_name := name.map (fun c => if c ∈ badChars then '_' else c)
  if safe_name.length > 100 then safe_name.take 100 else safe_name

/-! ## Paths and the filesystem

`pathlib`'s `/` operator parses the right operand: it is split on `'/'`,
and empty components and `'.'` components are discarded (none of the
names joined by the script ever begins with `'/'`, so the
absolute-path-reset behaviour of `pathlib` cannot trigger). -/

def splitSlash : Str → List Str
  | [] => [[]]
  | c :: rest =>
    if c = '/' then [] :: splitSlash rest
    else
      match splitSlash rest with
      | [] => [[c]]
      | p :: ps => (c :: p) :: ps

def pathJoin (p : FsPath) (s : Str) : FsPath :=
  p ++ (splitSlash s).filter (fun comp => decide (comp ≠ [] ∧ comp ≠ ['.']))

/-- The content of a written file, tagged by what the script serializes. -/
structure Folder where
  id : Int
  uid : Str
  title : Str
  url : Str
  hasAcl : Bool
  canSave : Bool
  canEdit : Bool
  canAdmin : Bool
  version : Int
deriving DecidableEq

/-- The synthetic root folder prepended by `get_folders` (lines 102-112). -/
def rootFolder : Folder :=
  { id := 0, uid := [], title := "General".data, url := [],
    hasAcl := false, canSave := true, canEdit := true, canAdmin := true,
    version := 1 }

/-- One entry of the `/api/search` result, as `export_dashboard` reads it. -/
structure DashInfo where
  uid : Str
  title : Str
  folderTitle : Option Str
deriving DecidableEq

/-- The `/api/dashboards/uid/<uid>` response: `dashboard` is `some` iff the
response dict contains the `'dashboard'` key (which also makes the dict
non-empty, hence truthy); `meta` folds in the `.get('meta', {})` default. -/
structure DashDetail where
  dashboard : Option Json
  meta : Json
deriving DecidableEq

/-- The record `export_dashboard` serializes (lines 171-176); `exportTime`
(a wall-clock string) is omitted from the model. `permissions` is `some`
iff the script attached a truthy permissions response. -/
structure ExportData where
  dashboard : Json
  meta : Json
  folderTitle : Str
  permissions : Option Json
deriving DecidableEq

/-- The content of `export_report.md`, reified as the data the script
interpolates into the markdown (counts, per-folder breakdown, listings). -/
structure Report where
  folderCount : Nat
  totalCount : Nat
  exportedCount : Nat
  failedCount : Int
  successRatePercent : Rat
  folderStructure : List (Str × Nat)
  fileListing : List (Str × List Str)
  otherFiles : List Str
deriving DecidableEq

inductive FileContent where
  | foldersJson (folders : List Folder)
  | rawJson (j : Json)
  | dashboard (d : ExportData)
  | report (r : Report)
deriving DecidableEq

/-- The filesystem: existing directories and written files.  A rewrite of
an existing path replaces its content (Python `open(..., 'w')`). -/
structure FS where
  dirs : List FsPath
  files : List (FsPath × FileContent)
deriving DecidableEq

/-- `Path.mkdir(exist_ok=True)` (no `parents`): succeeds if the directory
exists, creates it if its parent exists, otherwise raises (`none`). -/
def mkdir_eo (fs : FS) (p : FsPath) : Option FS :=
  if p ∈ fs.dirs then some fs
  else if p.dropLast ∈ fs.dirs then some { fs with dirs := fs.dirs ++ [p] }
  else none

/-- Replace any previous file at `p` and append the new one. -/
def overwrite (fs : FS) (p : FsPath) (c : FileContent) : FS :=
  { fs with files := fs.files.filter (fun e => decide (e.1 ≠ p)) ++ [(p, c)] }

/-- `open(p, 'w')` + `json.dump`: succeeds iff the parent directory
exists; overwrites any previous file at the same path. -/
def write_fs (fs : FS) (p : FsPath) (c : FileContent) : Option FS :=
  if p.dropLast ∈ fs.dirs then some (overwrite fs p c) else none

/-- The state right after `__init__`: the freshly created timestamped
session directory exists and is empty. -/
def init_fs (exportDir : FsPath) : FS := { dirs := [exportDir], files := [] }

/-! ## The resolved API and the run state

For the orchestration layer each endpoint's *resolved* `api_request`
outcome is an oracle value: `none` models an exhausted retry loop
(`api_request` returned `None`), `some j` a parsed JSON body. -/

structure Env where
  user : Option Json
  folders : Option (List Folder)
  search : Option Int → Option Str → Option (List DashInfo)
  dashboardDetail : Str → Option DashDetail
  permissions : Str → Option Json
  datasources : Option Json
  alerts : Option Json

/-- Run state: the filesystem plus an audit trail of the dashboard-detail
fetches issued and of the `(exported_count, total_count)` arguments of
each `generate_report` invocation. -/
structure RunState where
  fs : FS
  detailFetched : List Str
  reportCalls : List (Nat × Nat)
deriving DecidableEq

def init_state (exportDir : FsPath) : RunState :=
  { fs := init_fs exportDir, detailFetched := [], reportCalls := [] }

/-- `test_connection` (lines 81-93): truthiness of the current-user info. -/
def test_connection (env : Env) : Bool :=
  match env.user with
  | some j => jsonTruthy j
  | none => false

/-- `get_folders` (lines 95-123): on success prepend the synthetic root
folder and persist the list to `folders.json`; on API failure return the
empty list.  `none` models a crash of the `folders.json` write. -/
def get_folders (env : Env) (exportDir : FsPath) (fs : FS) :
    Option (List Folder) × FS :=
  match env.folders with
  | some fl =>
    let folders := rootFolder :: fl
    match write_fs fs (pathJoin exportDir "folders.json".data) (.foldersJson folders) with
    | some fs' => (some folders, fs')
    | none => (none, fs)
  | none => (some [], fs)

/-- `get_dashboards` (lines 125-144): the search query carries the folder
id when given and the tag only when truthy; an API failure yields `[]`. -/
def get_dashboards (env : Env) (folder_id : Option Int) (tag : Option Str) :
    List DashInfo :=
  let tagParam : Option Str :=
    match tag with
    | some t => if t = [] then none else some t
    | none => none
  match env.search folder_id tagParam with
  | some ds => ds
  | none => []

/-- `export_datasources` (lines 194-207): `if datasources:` — the write
happens only for a truthy (hence non-empty) response. -/
def export_datasources (env : Env) (exportDir : FsPath) (fs : FS) :
    Option Bool × FS :=
  match env.datasources with
  | some ds =>
    if jsonTruthy ds then
      match write_fs fs (pathJoin exportDir "datasources.json".data) (.rawJson ds) with
      | some fs' => (some true, fs')
      | none => (none, fs)
    else (some false, fs)
  | none => (some false, fs)

/-- `export_alerts` (lines 209-222): same shape as `export_datasources`. -/
def export_alerts (env : Env) (exportDir : FsPath) (fs : FS) :
    Option Bool × FS :=
  match env.alerts with
  | some al =>
    if jsonTruthy al then
      match write_fs fs (pathJoin exportDir "alerts.json".data) (.rawJson al) with
      | some fs' => (some true, fs')
      | none => (none, fs)
    else (some false, fs)
  | none => (some false, fs)

/-- Whether the detail fetch for a dashboard yields an exportable record
(`dashboard_data and 'dashboard' in dashboard_data`, line 165). -/
def detail_ok (env : Env) (d : DashInfo) : Bool :=
  match env.dashboardDetail d.uid with
  | some dd => dd.dashboard.isSome
  | none => false

/-- The path `export_dashboard` computes for a dashboard's file:
`export_dir / safe_filename(folder_title) / f"{safe_title}_{uid}.json"`. -/
def dashboard_file_path (exportDir : FsPath) (d : DashInfo) : FsPath :=
  pathJoin (pathJoin exportDir (safe_filename (d.folderTitle.getD "General".data)))
    (safe_filename d.title ++ '_' :: (d.uid ++ ".json".data))

/-- `export_dashboard` (lines 150-192).  The folder directory is created
first, then the detail is fetched (recorded in `detailFetched`); on a
missing response or missing `'dashboard'` key the function returns
`false` without writing.  An `OSError` of `mkdir`/`open` is `none`. -/
def export_dashboard (env : Env) (exportDir : FsPath)
    (include_permissions : Bool) (info : DashInfo) (st : RunState) :
    Option Bool × RunState :=
  let folder_title := info.folderTitle.getD "General".data
  let folder_dir := pathJoin exportDir (safe_filename folder_title)
  match mkdir_eo st.fs folder_dir with
  | none => (none, st)
  | some fs1 =>
    let st1 : RunState :=
      { st with fs := fs1, detailFetched := st.detailFetched ++ [info.uid] }
    match env.dashboardDetail info.uid with
    | some dd =>
      match dd.dashboard with
      | some dashBody =>
        let filename :=
          pathJoin folder_dir (safe_filename info.title ++ '_' :: (info.uid ++ ".json".data))
        let permissions : Option Json :=
          if include_permissions then
            match env.permissions info.uid with
            | some p => if jsonTruthy p then some p else none
            | none => none
          else none
        match write_fs st1.fs filename
            (.dashboard { dashboard := dashBody, meta := dd.meta,
                          folderTitle := folder_title, permissions := permissions }) with
        | some fs2 => (some true, { st1 with fs := fs2 })
        | none => (none, st1)
      | none => (some false, st1)
    | none => (some false, st1)

/-- The per-dashboard loop of `export_all` (lines 316-320). -/
def export_loop (env : Env) (exportDir : FsPath) (include_permissions : Bool) :
    List DashInfo → Nat → RunState → Option Nat × RunState
  | [], count, st => (some count, st)
  | d :: rest, count, st =>
    match export_dashboard env exportDir include_permissions d st with
    | (some success, st') =>
      export_loop env exportDir include_permissions rest
        (if success then count + 1 else count) st'
    | (none, st') => (none, st')

/-! ## The report (lines 224-274) -/

/-- Sorting as Python `sorted`: a stable insertion sort by `le`. -/
def insertSorted {α : Type} (le : α → α → Bool) (x : α) : List α → List α
  | [] => [x]
  | y :: ys => if le x y then x :: y :: ys else y :: insertSorted le x ys

def sortLe {α : Type} (le : α → α → Bool) : List α → List α
  | [] => []
  | x :: xs => insertSorted le x (sortLe le xs)

/-- Code-point lexicographic order on strings (Python `str` `<`). -/
def strLt : Str → Str → Bool
  | _, [] => false
  | [], _ :: _ => true
  | a :: as, b :: bs => if a = b then strLt as bs else decide (a < b)

def strLe (a b : Str) : Bool := !(strLt b a)

/-- `PurePath` ordering: lexicographic on the component tuple. -/
def pathLt : FsPath → FsPath → Bool
  | _, [] => false
  | [], _ :: _ => true
  | a :: as, b :: bs => if a = b then pathLt as bs else strLt a b

def pathLe (a b : FsPath) : Bool := !(pathLt b a)

def pathExists (fs : FS) (p : FsPath) : Bool :=
  decide (p ∈ fs.dirs) || decide (p ∈ fs.files.map Prod.fst)

def endsJson (p : FsPath) : Bool := ".json".data.isSuffixOf (p.getLastD [])

/-- `folder_path.glob("*.json")`: entries (files or directories) directly
under `d` whose name ends in `.json`; the OS enumeration order is
unspecified, and the script only counts or sorts these. -/
def glob_json (fs : FS) (d : FsPath) : List FsPath :=
  ((fs.dirs.filter (fun p => decide (p ≠ d) && decide (p.dropLast = d))) ++
    (fs.files.map Prod.fst).filter (fun p => decide (p.dropLast = d))).filter endsJson

/-- `export_dir.rglob("*.json")`: all entries strictly below the root
whose name ends in `.json`. -/
def rglob_json (fs : FS) (root : FsPath) : List FsPath :=
  ((fs.dirs ++ fs.files.map Prod.fst).filter
    (fun p => decide (root.length < p.length) && decide (p.take root.length = root))).filter
    endsJson

/-- The data interpolated into `export_report.md` (lines 234-272).  The
summary table (lines 240-247) uses the `exported_count`/`total_count`
arguments and `len(folders)`; the folder structure, file listing and
other-files sections re-scan the directory tree. -/
def report_content (exported_count total_count : Nat) (folders : List Folder)
    (exportDir : FsPath) (fs : FS) : Report :=
  let folder_dirs := fs.dirs.filter
    (fun p => decide (p ≠ exportDir) && decide (p.dropLast = exportDir))
  let json_files := rglob_json fs exportDir
  { folderCount := folders.length
    totalCount := total_count
    exportedCount := exported_count
    failedCount := (total_count : Int) - (exported_count : Int)
    successRatePercent := (exported_count : Rat) / (total_count : Rat) * 100
    folderStructure := folders.filterMap (fun fo =>
      let folder_path := pathJoin exportDir (safe_filename fo.title)
      if pathExists fs folder_path then
        some (fo.title, (glob_json fs folder_path).length)
      else none)
    fileListing := (sortLe pathLe folder_dirs).map (fun d =>
      (d.getLastD [], (sortLe pathLe (glob_json fs d)).map (fun p => p.getLastD [])))
    otherFiles := (sortLe pathLe (json_files.filter
      (fun p => decide (p.dropLast = exportDir)))).map (fun p => p.getLastD []) }

/-- `generate_report` (lines 224-274).  The invocation is recorded; a zero
`total_count` is the `ZeroDivisionError` of the success-rate line
(modelled as a crash, `none`), otherwise the report file is written. -/
def generate_report (exported_count total_count : Nat) (folders : List Folder)
    (exportDir : FsPath) (st : RunState) : Option Unit × RunState :=
  let st1 : RunState :=
    { st with reportCalls := st.reportCalls ++ [(exported_count, total_count)] }
  if total_count = 0 then (none, st1)
  else
    match write_fs st1.fs (pathJoin exportDir "export_report.md".data)
        (.report (report_content exported_count total_count folders exportDir st1.fs)) with
    | some fs' => (some (), { st1 with fs := fs' })
    | none => (none, st1)

/-! ## `export_all` (lines 276-331) -/

/-- Steps 5-7 of `export_all`: the empty-dashboard-list check, the
per-dashboard loop and the report. -/
def run_dashboards (env : Env) (exportDir : FsPath) (include_permissions : Bool)
    (folders : List Folder) (dashboards : List DashInfo) (st : RunState) :
    Option Bool × RunState :=
  if dashboards.isEmpty then (some false, st)
  else
    match export_loop env exportDir include_permissions dashboards 0 st with
    | (some exported_count, st') =>
      match generate_report exported_count dashboards.length folders exportDir st' with
      | (some _, st'') => (some true, st'')
      | (none, st'') => (none, st'')
    | (none, st') => (none, st')

/-- The folder-filter resolution of `export_all` (lines 297-309): a falsy
filter means no filter; an unresolved name returns `False` at once. -/
def run_search_phase (env : Env) (exportDir : FsPath) (include_permissions : Bool)
    (folders : List Folder) (folder_filter tag_filter : Option Str) (st : RunState) :
    Option Bool × RunState :=
  match folder_filter with
  | some f =>
    if f = [] then
      run_dashboards env exportDir include_permissions folders
        (get_dashboards env none tag_filter) st
    else
      match folders.find? (fun fo => decide (fo.title = f)) with
      | none => (some false, st)
      | some fo =>
        run_dashboards env exportDir include_permissions folders
          (get_dashboards env (some fo.id) tag_filter) st
  | none =>
    run_dashboards env exportDir include_permissions folders
      (get_dashboards env none tag_filter) st

/-- `export_all` (lines 276-331): connectivity check, folder discovery,
optional datasource/alert export, dashboard discovery, per-dashboard
loop, report.  `some b` is the returned boolean, `none` an uncaught
exception. -/
def export_all (env : Env) (exportDir : FsPath)
    (include_permissions include_datasources include_alerts : Bool)
    (folder_filter tag_filter : Option Str) (st : RunState) :
    Option Bool × RunState :=
  if test_connection env = false then (some false, st)
  else
    match get_folders env exportDir st.fs with
    | (none, fs1) => (none, { st with fs := fs1 })
    | (some folders, fs1) =>
      match (if include_datasources then export_datasources env exportDir fs1
             else (some false, fs1)) with
      | (none, fs2) => (none, { st with fs := fs2 })
      | (some _, fs2) =>
        match (if include_alerts then export_alerts env exportDir fs2
               else (some false, fs2)) with
        | (none, fs3) => (none, { st with fs := fs3 })
        | (some _, fs3) =>
          run_search_phase env exportDir include_permissions folders
            folder_filter tag_filter { st with fs := fs3 }

/-- The folder list as the rest of the run sees it (the pure content of
`get_folders`'s result). -/
def folders_result (env : Env) : List Folder :=
  match env.folders with
  | some fl => rootFolder :: fl
  | none => []

/-- The dashboard list the run will iterate over, given the filters. -/
def resolved_dashboards (env : Env) (folders : List Folder)
    (folder_filter tag_filter : Option Str) : List DashInfo :=
  match folder_filter with
  | some f =>
    if f = [] then get_dashboards env none tag_filter
    else
      match folders.find? (fun fo => decide (fo.title = f)) with
      | none => []
      | some fo => get_dashboards env (some fo.id) tag_filter
  | none => get_dashboards env none tag_filter

/-! ## Sample data (concrete servers and runs used to exercise the model) -/

def sessionDir : FsPath := ["session".data]

def opsFolder : Folder :=
  { id := 5, uid := "ops".data, title := "Ops".data, url := [],
    hasAcl := false, canSave := true, canEdit := true, canAdmin := true,
    version := 1 }

/-- A healthy server with no folders and no dashboards. -/
def baseEnv : Env :=
  { user := some (.obj [("login".data, .str "admin".data)])
    folders := some []
    search := fun _ _ => none
    dashboardDetail := fun _ => none
    permissions := fun _ => none
    datasources := none
    alerts := none }

/-- A server whose folder-list endpoint is down. -/
def envFoldersDown : Env := { baseEnv with folders := none }

/-- A server with one folder and whose folder list succeeds. -/
def envOneFolder : Env := { baseEnv with folders := some [opsFolder] }

/-- A server returning an empty datasource and alert array. -/
def envEmptyArrays : Env :=
  { baseEnv with datasources := some (.arr []), alerts := some (.arr []) }

/-- A server returning non-empty datasource and alert arrays. -/
def envArrays : Env :=
  { baseEnv with datasources := some (.arr [.num 1]), alerts := some (.arr [.num 2]) }

/-- A minimal successful dashboard detail. -/
def sampleDetail : DashDetail :=
  { dashboard := some (.obj [("title".data, .str "t".data)]), meta := .obj [] }

/-- A search result entry whose `folderTitle` is the empty string. -/
def emptyFolderTitleDash : DashInfo :=
  { uid := "u1".data, title := "t1".data, folderTitle := some [] }

/-- A server that serves one dashboard with an empty `folderTitle`. -/
def envEmptyFolderTitle : Env :=
  { baseEnv with
    search := fun _ _ => some [emptyFolderTitleDash]
    dashboardDetail := fun _ => some sampleDetail }

def dashOpsA : DashInfo :=
  { uid := "aaa".data, title := "CPU".data, folderTitle := some "Ops".data }

def dashOpsB : DashInfo :=
  { uid := "bbb".data, title := "Mem".data, folderTitle := some "Ops".data }

/-- A server with two dashboards where the detail fetch of the first
fails and the second succeeds. -/
def envOneFails : Env :=
  { baseEnv with
    folders := some [opsFolder]
    search := fun _ _ => some [dashOpsA, dashOpsB]
    dashboardDetail := fun u => if u = dashOpsB.uid then some sampleDetail else none }

/-- A server with one exportable dashboard. -/
def envOneDash : Env :=
  { baseEnv with
    folders := some [opsFolder]
    search := fun _ _ => some [dashOpsA]
    dashboardDetail := fun _ => some sampleDetail }

end GrafanaExporter

namespace GrafanaExporter

/-! # Theorems -/

theorem api_request_loop_spec {α : Type} (call : Nat → Option α) (v : α) :
    ∀ (k a : Nat), (∀ i, a ≤ i → i < a + k → call i = none) →
      call (a + k) = some v →
      api_request_loop call a (k + 1) =
        (some v, (List.range' a k).map (fun i => 2 ^ i)) := by
  intro k
  induction k with
  | zero =>
    intro a _ hsucc
    simp only [Nat.add_zero] at hsucc
    simp [api_request_loop, hsucc]
  | succ k ih =>
    intro a hfail hsucc
    have ha : call a = none := hfail a (Nat.le_refl a) (by omega)
    have hrest := ih (a + 1) (fun i h1 h2 => hfail i (by omega) (by omega))
      (by have : a + 1 + k = a + (k + 1) := by omega
          rw [this]; exact hsucc)
    simp [api_request_loop, ha, hrest, List.range'_succ]

/-- Claim C1: for every retry budget `n ≥ 1`, if the underlying HTTP call
fails on every attempt before the last and succeeds on the `n`-th (final)
attempt, `api_request` returns the parsed JSON result, having slept
`2 ^ attempt` time units after each failed attempt (1, 2, 4, ...). -/
theorem api_request_succeeds_on_final_attempt {α : Type}
    (call : Nat → Option α) (n : Nat) (v : α) (hn : 1 ≤ n)
    (hfail : ∀ i, i < n - 1 → call i = none)
    (hsucc : call (n - 1) = some v) :
    api_request call n = (some v, (List.range (n - 1)).map (fun i => 2 ^ i)) := by
  obtain ⟨k, rfl⟩ : ∃ k, n = k + 1 := ⟨n - 1, by omega⟩
  have h := api_request_loop_spec call v k 0
    (fun i _ h2 => hfail i (by omega)) (by simpa using hsucc)
  simpa [api_request, List.range_eq_range'] using h

theorem api_request_succeeds_on_final_attempt_witness :
    (1 ≤ 3) ∧
      api_request (fun i => if i = 2 then (some 7 : Option Nat) else none) 3 =
        (some 7, [1, 2]) := by
  refine ⟨by decide, ?_⟩
  have h := api_request_succeeds_on_final_attempt
    (fun i => if i = 2 then (some 7 : Option Nat) else none) 3 7
    (by decide) (fun i hi => by interval_cases i <;> rfl) (by rfl)
  simpa using h

theorem api_request_loop_all_fail {α : Type} (call : Nat → Option α) :
    ∀ (k a : Nat), (∀ i, a ≤ i → i < a + k → call i = none) →
      (api_request_loop call a k).1 = none := by
  intro k
  induction k with
  | zero => intro a _; simp [api_request_loop]
  | succ k ih =>
    intro a hfail
    have ha : call a = none := hfail a (Nat.le_refl a) (by omega)
    match k, ih with
    | 0, _ => simp [api_request_loop, ha]
    | r + 1, ih =>
      have := ih (a + 1) (fun i h1 h2 => hfail i (by omega) (by omega))
      simp [api_request_loop, ha, this]

/-- Claim C2: if every one of the configured attempts fails with a
network/HTTP error (a caught `RequestException`, modelled by the oracle
returning `none`), `api_request` returns `none` to its caller; in the
embedding the function is total, i.e. no exception escapes. -/
theorem api_request_all_attempts_fail {α : Type}
    (call : Nat → Option α) (n : Nat)
    (hfail : ∀ i, i < n → call i = none) :
    (api_request call n).1 = none :=
  api_request_loop_all_fail call n 0 (fun i _ h2 => hfail i (by omega))

theorem api_request_all_attempts_fail_witness :
    (api_request (fun _ => (none : Option Nat)) 2).1 = none :=
  api_request_all_attempts_fail (fun _ => (none : Option Nat)) 2
    (fun _ _ => rfl)

theorem safe_filename_not_bad {name : Str} :
    ∀ c ∈ safe_filename name, c ∉ badChars := by
  intro c hc
  have hmem : c ∈ name.map (fun c => if c ∈ badChars then '_' else c) := by
    unfold safe_filename at hc
    dsimp only at hc
    split at hc
    · exact List.mem_of_mem_take hc
    · exact hc
  obtain ⟨a, _, ha⟩ := List.mem_map.mp hmem
  by_cases h : a ∈ badChars
  · simp only [if_pos h] at ha
    rw [← ha]; decide
  · simp only [if_neg h] at ha
    rw [← ha]; exact h

theorem safe_filename_length_le (name : Str) :
    (safe_filename name).length ≤ 100 := by
  unfold safe_filename
  dsimp only
  split
  · exact List.length_take_le 100 _
  · omega

theorem safe_filename_no_slash {name : Str} :
    ∀ c ∈ safe_filename name, c ≠ '/' := by
  intro c hc heq
  exact safe_filename_not_bad c hc (by rw [heq]; decide)

/-- Claim C4: for every input string, the result of `safe_filename`
contains none of the characters `< > : " / \ | ? *` and has length at
most 100. -/
theorem safe_filename_safe (name : Str) :
    (∀ c ∈ safe_filename name, c ∉ badChars) ∧
      (safe_filename name).length ≤ 100 :=
  ⟨safe_filename_not_bad, safe_filename_length_le name⟩

/-! ## Path lemmas -/

theorem splitSlash_no_slash (s : Str) (h : ∀ c ∈ s, c ≠ '/') :
    splitSlash s = [s] := by
  induction s with
  | nil => rfl
  | cons c rest ih =>
    have hc : c ≠ '/' := h c (List.mem_cons_self c rest)
    have hr := ih (fun x hx => h x (List.mem_cons_of_mem c hx))
    simp [splitSlash, hc, hr]

theorem pathJoin_single (p : FsPath) (s : Str) (h : ∀ c ∈ s, c ≠ '/')
    (hne : s ≠ []) (hdot : s ≠ ['.']) : pathJoin p s = p ++ [s] := by
  unfold pathJoin
  rw [splitSlash_no_slash s h]
  simp [List.filter, hne, hdot]

theorem write_fs_concat (fs : FS) (comp : Str) (base : FsPath)
    (c : FileContent) (hdir : base ∈ fs.dirs) :
    write_fs fs (base ++ [comp]) c = some (overwrite fs (base ++ [comp]) c) := by
  unfold write_fs
  rw [List.dropLast_concat]
  rw [if_pos hdir]

/-! ## `get_folders` (claim C3) -/

/-- Claim C3, counterexample: when the folder-list API call fails,
`get_folders` returns the empty list, which does not contain the
synthetic root folder at all — refuting the claim for the failure case. -/
theorem get_folders_failure_counterexample :
    (get_folders envFoldersDown sessionDir (init_fs sessionDir)).1 = some [] ∧
      ((get_folders envFoldersDown sessionDir (init_fs sessionDir)).1.getD
        [rootFolder]).count rootFolder = 0 := by
  decide

/-- Claim C3 (amended): for every list the folder-list API returns
(including the empty list), `get_folders` prepends the synthetic root
folder, so the root folder is the first element, and it occurs exactly
once whenever the API list does not itself contain an identical record;
when the folder API fails, `get_folders` instead returns the empty
list. -/
theorem get_folders_root_first (env : Env) (exportDir : FsPath) (fs : FS)
    (l : List Folder) (hl : env.folders = some l) (hroot : rootFolder ∉ l)
    (hdir : exportDir ∈ fs.dirs) :
    (get_folders env exportDir fs).1 = some (rootFolder :: l) ∧
      (rootFolder :: l).head? = some rootFolder ∧
      (rootFolder :: l).count rootFolder = 1 ∧
      (∀ env' fs', env'.folders = none →
        (get_folders env' exportDir fs').1 = some []) := by
  refine ⟨?_, rfl, ?_, ?_⟩
  · unfold get_folders
    rw [hl]
    dsimp only
    rw [pathJoin_single exportDir "folders.json".data (by decide) (by decide) (by decide)]
    rw [write_fs_concat fs _ exportDir _ hdir]
  · rw [List.count_cons_self, List.count_eq_zero_of_not_mem hroot]
  · intro env' fs' h
    unfold get_folders
    rw [h]

theorem get_folders_root_first_witness :
    (get_folders envOneFolder sessionDir (init_fs sessionDir)).1 =
      some [rootFolder, opsFolder] :=
  (get_folders_root_first envOneFolder sessionDir (init_fs sessionDir)
    [opsFolder] rfl (by decide) (by decide)).1

/-! ## `export_datasources` / `export_alerts` (claim C8) -/

/-- Claim C8, counterexample: the datasource-list (resp. alert-list) API
returns the empty array, yet nothing is persisted and failure is
reported — `if datasources:` treats the empty array as falsy. -/
theorem export_config_empty_array_counterexample :
    export_datasources envEmptyArrays sessionDir (init_fs sessionDir) =
      (some false, init_fs sessionDir) ∧
    export_alerts envEmptyArrays sessionDir (init_fs sessionDir) =
      (some false, init_fs sessionDir) ∧
    (init_fs sessionDir).files = [] := by
  decide

/-- Claim C8 (amended): for every *non-empty* array returned by the
datasource-list (resp. alert-list) API call, `export_datasources`
(resp. `export_alerts`) persists that array verbatim to
`datasources.json` (resp. `alerts.json`) and reports success; an empty
array is falsy in the `if datasources:` test, so it is treated like a
failed fetch — nothing is written and failure is reported. -/
theorem export_config_arrays (env : Env) (exportDir : FsPath) (fs : FS)
    (l m : List JsonAtom) (hdir : exportDir ∈ fs.dirs)
    (hds : env.datasources = some (.arr l)) (hl : l ≠ [])
    (hal : env.alerts = some (.arr m)) (hm : m ≠ []) :
    export_datasources env exportDir fs =
      (some true,
        overwrite fs (exportDir ++ ["datasources.json".data]) (.rawJson (.arr l))) ∧
    export_alerts env exportDir fs =
      (some true,
        overwrite fs (exportDir ++ ["alerts.json".data]) (.rawJson (.arr m))) ∧
    (∀ env', env'.datasources = some (.arr []) →
      export_datasources env' exportDir fs = (some false, fs)) ∧
    (∀ env', env'.alerts = some (.arr []) →
      export_alerts env' exportDir fs = (some false, fs)) := by
  refine ⟨?_, ?_, ?_, ?_⟩
  · unfold export_datasources
    have ht : jsonTruthy (Json.arr l) = true := by simpa [jsonTruthy] using hl
    rw [hds]
    rw [pathJoin_single exportDir "datasources.json".data (by decide) (by decide) (by decide)]
    simp only [ht, if_true, write_fs_concat fs _ exportDir _ hdir]
  · unfold export_alerts
    have ht : jsonTruthy (Json.arr m) = true := by simpa [jsonTruthy] using hm
    rw [hal]
    rw [pathJoin_single exportDir "alerts.json".data (by decide) (by decide) (by decide)]
    simp only [ht, if_true, write_fs_concat fs _ exportDir _ hdir]
  · intro env' h
    unfold export_datasources
    rw [h]
    simp [jsonTruthy]
  · intro env' h
    unfold export_alerts
    rw [h]
    simp [jsonTruthy]

/-! ## `export_dashboard` (claim C5) -/

theorem pathJoin_nil (p : FsPath) : pathJoin p [] = p := by
  simp [pathJoin, splitSlash]

theorem pathJoin_dot (p : FsPath) : pathJoin p ['.'] = p := by
  simp [pathJoin, splitSlash]

theorem mkdir_eo_ok (fs : FS) (base : FsPath) (comp : Str)
    (hdir : base ∈ fs.dirs) :
    ∃ fs1, mkdir_eo fs (base ++ [comp]) = some fs1 ∧ fs1.files = fs.files ∧
      base ++ [comp] ∈ fs1.dirs ∧ ∀ d ∈ fs.dirs, d ∈ fs1.dirs := by
  unfold mkdir_eo
  by_cases h : base ++ [comp] ∈ fs.dirs
  · rw [if_pos h]
    exact ⟨fs, rfl, rfl, h, fun d hd => hd⟩
  · rw [if_neg h, List.dropLast_concat, if_pos hdir]
    exact ⟨_, rfl, rfl, by simp, fun d hd => by simp [hd]⟩

theorem mkdir_eo_exists (fs : FS) (p : FsPath) (h : p ∈ fs.dirs) :
    mkdir_eo fs p = some fs := by
  unfold mkdir_eo
  rw [if_pos h]

theorem dash_filename_no_slash (t uid : Str) (huid : '/' ∉ uid) :
    ∀ c ∈ safe_filename t ++ '_' :: (uid ++ ".json".data), c ≠ '/' := by
  intro c hc
  rcases List.mem_append.mp hc with h | h
  · exact safe_filename_no_slash c h
  · rcases List.mem_cons.mp h with h | h
    · subst h; decide
    · rcases List.mem_append.mp h with h | h
      · intro he; subst he; exact huid h
      · have hj : ∀ c ∈ ".json".data, c ≠ '/' := by decide
        exact hj c h

theorem dash_filename_ne_nil (t uid : Str) :
    safe_filename t ++ '_' :: (uid ++ ".json".data) ≠ [] := by
  simp

theorem dash_filename_ne_dot (t uid : Str) :
    safe_filename t ++ '_' :: (uid ++ ".json".data) ≠ ['.'] := by
  intro h
  cases hst : safe_filename t with
  | nil =>
    rw [hst] at h
    simp only [List.nil_append, List.cons.injEq] at h
    exact absurd h.1 (by decide)
  | cons a as =>
    rw [hst] at h
    simp only [List.cons_append, List.cons.injEq] at h
    have := h.2
    simp at this

/-- Under the folder-title provisos, the dashboard file path is exactly
one folder component and one file component below the session directory. -/
theorem dashboard_file_path_eq (exportDir : FsPath) (info : DashInfo)
    (huid : '/' ∉ info.uid)
    (hsf : safe_filename (info.folderTitle.getD "General".data) ≠ [])
    (hsfd : safe_filename (info.folderTitle.getD "General".data) ≠ ['.']) :
    dashboard_file_path exportDir info =
      exportDir ++ [safe_filename (info.folderTitle.getD "General".data),
        safe_filename info.title ++ '_' :: (info.uid ++ ".json".data)] := by
  unfold dashboard_file_path
  rw [pathJoin_single _ _ safe_filename_no_slash hsf hsfd]
  rw [pathJoin_single _ _ (dash_filename_no_slash _ _ huid)
    (dash_filename_ne_nil _ _) (dash_filename_ne_dot _ _)]
  simp

/-- The full behaviour of one `export_dashboard` call when the session
directory exists and the uid contains no path separator. -/
theorem export_dashboard_spec (env : Env) (exportDir : FsPath)
    (include_permissions : Bool) (info : DashInfo) (st : RunState)
    (hdir : exportDir ∈ st.fs.dirs) (huid : '/' ∉ info.uid) :
    ∃ st' : RunState,
      export_dashboard env exportDir include_permissions info st =
        (some (detail_ok env info), st') ∧
      st'.detailFetched = st.detailFetched ++ [info.uid] ∧
      st'.reportCalls = st.reportCalls ∧
      (∀ d ∈ st.fs.dirs, d ∈ st'.fs.dirs) ∧
      (detail_ok env info = false → st'.fs.files = st.fs.files) ∧
      (detail_ok env info = true → ∃ ed : ExportData,
        st'.fs.files = st.fs.files.filter
          (fun e => decide (e.1 ≠ dashboard_file_path exportDir info)) ++
          [(dashboard_file_path exportDir info, .dashboard ed)]) := by
  obtain ⟨fs1, hmk, hfiles1, hfd1, hdirs1⟩ :
      ∃ fs1, mkdir_eo st.fs
          (pathJoin exportDir (safe_filename (info.folderTitle.getD "General".data))) =
          some fs1 ∧
        fs1.files = st.fs.files ∧
        pathJoin exportDir (safe_filename (info.folderTitle.getD "General".data)) ∈ fs1.dirs ∧
        (∀ d ∈ st.fs.dirs, d ∈ fs1.dirs) := by
    by_cases h1 : safe_filename (info.folderTitle.getD "General".data) = []
    · rw [h1, pathJoin_nil]
      exact ⟨st.fs, mkdir_eo_exists st.fs exportDir hdir, rfl, hdir, fun d hd => hd⟩
    · by_cases h2 : safe_filename (info.folderTitle.getD "General".data) = ['.']
      · rw [h2, pathJoin_dot]
        exact ⟨st.fs, mkdir_eo_exists st.fs exportDir hdir, rfl, hdir, fun d hd => hd⟩
      · rw [pathJoin_single _ _ safe_filename_no_slash h1 h2]
        exact mkdir_eo_ok st.fs exportDir _ hdir
  unfold export_dashboard
  dsimp only
  rw [hmk]
  dsimp only
  cases hdet : env.dashboardDetail info.uid with
  | none =>
    have hok : detail_ok env info = false := by simp [detail_ok, hdet]
    rw [hok]
    exact ⟨_, rfl, rfl, rfl, hdirs1, fun _ => hfiles1, fun h => absurd h (by simp [hok])⟩
  | some dd =>
    dsimp only
    cases hdash : dd.dashboard with
    | none =>
      have hok : detail_ok env info = false := by simp [detail_ok, hdet, hdash]
      rw [hok]
      exact ⟨_, rfl, rfl, rfl, hdirs1, fun _ => hfiles1, fun h => absurd h (by simp [hok])⟩
    | some dashBody =>
      have hok : detail_ok env info = true := by simp [detail_ok, hdet, hdash]
      rw [hok]
      dsimp only
      rw [pathJoin_single _ _ (dash_filename_no_slash _ _ huid)
        (dash_filename_ne_nil _ _) (dash_filename_ne_dot _ _)]
      rw [write_fs_concat fs1 _ _ _ hfd1]
      refine ⟨_, rfl, rfl, rfl, fun d hd => hdirs1 d hd, ?_, ?_⟩
      · intro h; exact absurd h (by simp [hok])
      · intro _
        refine ⟨{ dashboard := dashBody, meta := dd.meta,
                  folderTitle := info.folderTitle.getD "General".data,
                  permissions :=
                    if include_permissions then
                      match env.permissions info.uid with
                      | some p => if jsonTruthy p then some p else none
                      | none => none
                    else none }, ?_⟩
        have hp : dashboard_file_path exportDir info =
            pathJoin exportDir (safe_filename (info.folderTitle.getD "General".data)) ++
              [safe_filename info.title ++ '_' :: (info.uid ++ ".json".data)] := by
          unfold dashboard_file_path
          rw [pathJoin_single _ _ (dash_filename_no_slash _ _ huid)
            (dash_filename_ne_nil _ _) (dash_filename_ne_dot _ _)]
        rw [hp]
        simp only [overwrite, hfiles1]

/-- Claim C5, counterexample: a dashboard whose search entry carries an
*empty* `folderTitle` is successfully exported, but its file is written
directly into the session directory (its parent is the session directory
itself), not into a folder-named subdirectory. -/
theorem export_dashboard_empty_folder_title_counterexample :
    (export_dashboard envEmptyFolderTitle sessionDir false emptyFolderTitleDash
      (init_state sessionDir)).1 = some true ∧
    (export_dashboard envEmptyFolderTitle sessionDir false emptyFolderTitleDash
      (init_state sessionDir)).2.fs.files.map Prod.fst =
      [sessionDir ++ ["t1_u1.json".data]] ∧
    (sessionDir ++ ["t1_u1.json".data]).dropLast = sessionDir := by
  decide

/-- Claim C5 (amended): for every dashboard successfully exported by
`export_dashboard` whose uid contains no `/` and whose (defaulted)
`folderTitle` sanitizes to a non-trivial path component, the written
file's path is exactly
`<session-dir>/<sanitized folderTitle>/<sanitized title>_<uid>.json`
(with `folderTitle` defaulting to `'General'` when absent), i.e. inside
the folder-named subdirectory; a dashboard whose sanitized folder title
is empty (or `'.'`) is instead written directly into the session
directory. -/
theorem export_dashboard_path_exact (env : Env) (exportDir : FsPath)
    (include_permissions : Bool) (info : DashInfo) (st : RunState)
    (hdir : exportDir ∈ st.fs.dirs) (huid : '/' ∉ info.uid)
    (hsf : safe_filename (info.folderTitle.getD "General".data) ≠ [])
    (hsfd : safe_filename (info.folderTitle.getD "General".data) ≠ ['.'])
    (hok : detail_ok env info = true) :
    ∃ ed : ExportData, ∃ st' : RunState,
      export_dashboard env exportDir include_permissions info st =
        (some true, st') ∧
      st'.fs.files = st.fs.files.filter
        (fun e => decide (e.1 ≠ dashboard_file_path exportDir info)) ++
        [(dashboard_file_path exportDir info, .dashboard ed)] ∧
      dashboard_file_path exportDir info =
        exportDir ++ [safe_filename (info.folderTitle.getD "General".data),
          safe_filename info.title ++ '_' :: (info.uid ++ ".json".data)] := by
  obtain ⟨st', heq, _, _, _, _, hfiles⟩ :=
    export_dashboard_spec env exportDir include_permissions info st hdir huid
  obtain ⟨ed, hed⟩ := hfiles hok
  rw [hok] at heq
  exact ⟨ed, st', heq, hed, dashboard_file_path_eq exportDir info huid hsf hsfd⟩

theorem export_dashboard_path_exact_witness :
    (export_dashboard envOneDash sessionDir false dashOpsA
      (init_state sessionDir)).1 = some true ∧
    dashboard_file_path sessionDir dashOpsA =
      sessionDir ++ ["Ops".data, "CPU_aaa.json".data] := by
  obtain ⟨ed, st', h1, h2, h3⟩ := export_dashboard_path_exact envOneDash sessionDir
    false dashOpsA (init_state sessionDir) (by decide) (by decide) (by decide)
    (by decide) (by decide)
  refine ⟨by rw [h1], ?_⟩
  rw [h3]
  decide

/-! ## Filesystem bookkeeping lemmas -/

theorem overwrite_files (fs : FS) (p : FsPath) (c : FileContent) :
    (overwrite fs p c).files =
      fs.files.filter (fun e => decide (e.1 ≠ p)) ++ [(p, c)] := rfl

theorem mem_fst_overwrite (fs : FS) (p q : FsPath) (c : FileContent)
    (hq : q ∈ fs.files.map Prod.fst) :
    q ∈ (overwrite fs p c).files.map Prod.fst := by
  rw [overwrite_files]
  by_cases hqp : q = p
  · subst hqp
    exact List.mem_map.mpr ⟨(q, c), List.mem_append_right _ (List.mem_singleton_self _), rfl⟩
  · obtain ⟨e, he, hfst⟩ := List.mem_map.mp hq
    exact List.mem_map.mpr ⟨e, List.mem_append_left _
      (List.mem_filter.mpr ⟨he, by simp [hfst, hqp]⟩), hfst⟩

theorem mem_fst_overwrite_rev (fs : FS) (p q : FsPath) (c : FileContent)
    (hq : q ∈ (overwrite fs p c).files.map Prod.fst) :
    q ∈ fs.files.map Prod.fst ∨ q = p := by
  rw [overwrite_files, List.map_append, List.mem_append] at hq
  rcases hq with h | h
  · left
    obtain ⟨e, he, hfst⟩ := List.mem_map.mp h
    exact List.mem_map.mpr ⟨e, List.mem_of_mem_filter he, hfst⟩
  · right
    simpa using h

/-! ## Stage specifications for `export_all` -/

theorem get_folders_spec (env : Env) (dir : FsPath) (fs : FS)
    (hdir : dir ∈ fs.dirs) :
    ∃ fs1, get_folders env dir fs = (some (folders_result env), fs1) ∧
      fs1.dirs = fs.dirs ∧
      (∀ q ∈ fs.files.map Prod.fst, q ∈ fs1.files.map Prod.fst) ∧
      (∀ q ∈ fs1.files.map Prod.fst,
        q ∈ fs.files.map Prod.fst ∨ q = dir ++ ["folders.json".data]) := by
  unfold get_folders folders_result
  cases henv : env.folders with
  | none => exact ⟨fs, rfl, rfl, fun q hq => hq, fun q hq => Or.inl hq⟩
  | some fl =>
    dsimp only
    rw [pathJoin_single dir "folders.json".data (by decide) (by decide) (by decide)]
    rw [write_fs_concat fs _ dir _ hdir]
    exact ⟨_, rfl, rfl, fun q hq => mem_fst_overwrite fs _ q _ hq,
      fun q hq => mem_fst_overwrite_rev fs _ q _ hq⟩

theorem export_datasources_spec (env : Env) (dir : FsPath) (fs : FS)
    (hdir : dir ∈ fs.dirs) :
    ∃ b fs1, export_datasources env dir fs = (some b, fs1) ∧
      fs1.dirs = fs.dirs ∧
      (∀ q ∈ fs.files.map Prod.fst, q ∈ fs1.files.map Prod.fst) ∧
      (∀ q ∈ fs1.files.map Prod.fst,
        q ∈ fs.files.map Prod.fst ∨ q = dir ++ ["datasources.json".data]) := by
  unfold export_datasources
  cases henv : env.datasources with
  | none => exact ⟨false, fs, rfl, rfl, fun q hq => hq, fun q hq => Or.inl hq⟩
  | some ds =>
    dsimp only
    by_cases ht : jsonTruthy ds = true
    · rw [if_pos ht]
      rw [pathJoin_single dir "datasources.json".data (by decide) (by decide) (by decide)]
      rw [write_fs_concat fs _ dir _ hdir]
      exact ⟨true, _, rfl, rfl, fun q hq => mem_fst_overwrite fs _ q _ hq,
        fun q hq => mem_fst_overwrite_rev fs _ q _ hq⟩
    · rw [if_neg ht]
      exact ⟨false, fs, rfl, rfl, fun q hq => hq, fun q hq => Or.inl hq⟩

theorem export_alerts_spec (env : Env) (dir : FsPath) (fs : FS)
    (hdir : dir ∈ fs.dirs) :
    ∃ b fs1, export_alerts env dir fs = (some b, fs1) ∧
      fs1.dirs = fs.dirs ∧
      (∀ q ∈ fs.files.map Prod.fst, q ∈ fs1.files.map Prod.fst) ∧
      (∀ q ∈ fs1.files.map Prod.fst,
        q ∈ fs.files.map Prod.fst ∨ q = dir ++ ["alerts.json".data]) := by
  unfold export_alerts
  cases henv : env.alerts with
  | none => exact ⟨false, fs, rfl, rfl, fun q hq => hq, fun q hq => Or.inl hq⟩
  | some al =>
    dsimp only
    by_cases ht : jsonTruthy al = true
    · rw [if_pos ht]
      rw [pathJoin_single dir "alerts.json".data (by decide) (by decide) (by decide)]
      rw [write_fs_concat fs _ dir _ hdir]
      exact ⟨true, _, rfl, rfl, fun q hq => mem_fst_overwrite fs _ q _ hq,
        fun q hq => mem_fst_overwrite_rev fs _ q _ hq⟩
    · rw [if_neg ht]
      exact ⟨false, fs, rfl, rfl, fun q hq => hq, fun q hq => Or.inl hq⟩

theorem datasources_stage_spec (env : Env) (dir : FsPath) (fs : FS) (flag : Bool)
    (hdir : dir ∈ fs.dirs) :
    ∃ b fs1, (if flag then export_datasources env dir fs
        else ((some false : Option Bool), fs)) = (some b, fs1) ∧
      fs1.dirs = fs.dirs ∧
      (∀ q ∈ fs.files.map Prod.fst, q ∈ fs1.files.map Prod.fst) ∧
      (∀ q ∈ fs1.files.map Prod.fst,
        q ∈ fs.files.map Prod.fst ∨ q = dir ++ ["datasources.json".data]) := by
  cases flag with
  | false => exact ⟨false, fs, rfl, rfl, fun q hq => hq, fun q hq => Or.inl hq⟩
  | true => exact export_datasources_spec env dir fs hdir

theorem alerts_stage_spec (env : Env) (dir : FsPath) (fs : FS) (flag : Bool)
    (hdir : dir ∈ fs.dirs) :
    ∃ b fs1, (if flag then export_alerts env dir fs
        else ((some false : Option Bool), fs)) = (some b, fs1) ∧
      fs1.dirs = fs.dirs ∧
      (∀ q ∈ fs.files.map Prod.fst, q ∈ fs1.files.map Prod.fst) ∧
      (∀ q ∈ fs1.files.map Prod.fst,
        q ∈ fs.files.map Prod.fst ∨ q = dir ++ ["alerts.json".data]) := by
  cases flag with
  | false => exact ⟨false, fs, rfl, rfl, fun q hq => hq, fun q hq => Or.inl hq⟩
  | true => exact export_alerts_spec env dir fs hdir

/-! ## `generate_report` lemmas -/

theorem generate_report_spec (ec tc : Nat) (folders : List Folder)
    (dir : FsPath) (st : RunState) (htc : tc ≠ 0) (hdir : dir ∈ st.fs.dirs) :
    ∃ st', generate_report ec tc folders dir st = (some (), st') ∧
      st'.detailFetched = st.detailFetched ∧
      st'.reportCalls = st.reportCalls ++ [(ec, tc)] ∧
      st'.fs.dirs = st.fs.dirs ∧
      (∀ q ∈ st.fs.files.map Prod.fst, q ∈ st'.fs.files.map Prod.fst) ∧
      (dir ++ ["export_report.md".data],
        .report (report_content ec tc folders dir st.fs)) ∈ st'.fs.files := by
  unfold generate_report
  dsimp only
  rw [if_neg htc]
  rw [pathJoin_single dir "export_report.md".data (by decide) (by decide) (by decide)]
  rw [write_fs_concat st.fs _ dir _ hdir]
  refine ⟨_, rfl, rfl, rfl, rfl, fun q hq => mem_fst_overwrite st.fs _ q _ hq, ?_⟩
  rw [overwrite_files]
  exact List.mem_append_right _ (List.mem_singleton_self _)

theorem generate_report_calls (ec tc : Nat) (folders : List Folder)
    (dir : FsPath) (st : RunState) :
    (generate_report ec tc folders dir st).2.reportCalls =
      st.reportCalls ++ [(ec, tc)] := by
  unfold generate_report
  dsimp only
  split
  · rfl
  · split <;> rfl

theorem generate_report_zero_faults (ec : Nat) (folders : List Folder)
    (dir : FsPath) (st : RunState) :
    (generate_report ec 0 folders dir st).1 = none := by
  unfold generate_report
  dsimp only
  rw [if_pos rfl]

/-! ## The export loop -/

theorem export_dashboard_report_calls (env : Env) (dir : FsPath) (incP : Bool)
    (d : DashInfo) (st : RunState) :
    (export_dashboard env dir incP d st).2.reportCalls = st.reportCalls := by
  unfold export_dashboard
  dsimp only
  split
  · rfl
  · split
    · split
      · split <;> rfl
      · rfl
    · rfl

theorem export_loop_report_calls (env : Env) (dir : FsPath) (incP : Bool) :
    ∀ (ds : List DashInfo) (count : Nat) (st : RunState),
      (export_loop env dir incP ds count st).2.reportCalls = st.reportCalls := by
  intro ds
  induction ds with
  | nil => intro count st; rfl
  | cons d rest ih =>
    intro count st
    unfold export_loop
    have h1 := export_dashboard_report_calls env dir incP d st
    split
    · rename_i success st' heq
      rw [heq] at h1
      rw [ih]
      exact h1
    · rename_i st' heq
      rw [heq] at h1
      exact h1

/-- The full behaviour of the per-dashboard loop when the session
directory exists and no uid contains a path separator: every dashboard
is attempted in order, the successes are counted, and each successful
dashboard's file is on disk afterwards. -/
theorem export_loop_spec (env : Env) (exportDir : FsPath) (incP : Bool) :
    ∀ (ds : List DashInfo) (count : Nat) (st : RunState),
      exportDir ∈ st.fs.dirs → (∀ d ∈ ds, '/' ∉ d.uid) →
      ∃ st', export_loop env exportDir incP ds count st =
          (some (count + (ds.filter (fun d => detail_ok env d)).length), st') ∧
        st'.detailFetched = st.detailFetched ++ ds.map (fun d => d.uid) ∧
        st'.reportCalls = st.reportCalls ∧
        exportDir ∈ st'.fs.dirs ∧
        (∀ q ∈ st.fs.files.map Prod.fst, q ∈ st'.fs.files.map Prod.fst) ∧
        (∀ d ∈ ds, detail_ok env d = true →
          dashboard_file_path exportDir d ∈ st'.fs.files.map Prod.fst) := by
  intro ds
  induction ds with
  | nil =>
    intro count st hdir _
    exact ⟨st, rfl, (List.append_nil _).symm, rfl, hdir, fun q hq => hq,
      fun d hd _ => absurd hd (List.not_mem_nil d)⟩
  | cons d rest ih =>
    intro count st hdir huids
    obtain ⟨st1, heq1, hdf1, hrc1, hdirs1, hfalse1, htrue1⟩ :=
      export_dashboard_spec env exportDir incP d st hdir
        (huids d (List.mem_cons_self d rest))
    have hdir1 : exportDir ∈ st1.fs.dirs := hdirs1 _ hdir
    have hmono1 : ∀ q ∈ st.fs.files.map Prod.fst, q ∈ st1.fs.files.map Prod.fst := by
      intro q hq
      cases hok : detail_ok env d with
      | false => rw [hfalse1 hok]; exact hq
      | true =>
        obtain ⟨ed, hed⟩ := htrue1 hok
        rw [hed]
        exact mem_fst_overwrite st.fs _ q _ hq
    have hd_mem : detail_ok env d = true →
        dashboard_file_path exportDir d ∈ st1.fs.files.map Prod.fst := by
      intro hok
      obtain ⟨ed, hed⟩ := htrue1 hok
      rw [hed]
      exact List.mem_map.mpr ⟨(dashboard_file_path exportDir d, .dashboard ed),
        List.mem_append_right _ (List.mem_singleton_self _), rfl⟩
    obtain ⟨st2, heq2, hdf2, hrc2, hdir2, hmono2, hpaths2⟩ :=
      ih (if detail_ok env d = true then count + 1 else count) st1 hdir1
        (fun d' hd' => huids d' (List.mem_cons_of_mem d hd'))
    refine ⟨st2, ?_, ?_, ?_, hdir2, fun q hq => hmono2 q (hmono1 q hq), ?_⟩
    · unfold export_loop
      rw [heq1]
      dsimp only
      rw [heq2]
      congr 2
      cases hok : detail_ok env d with
      | false => simp [List.filter_cons, hok]
      | true => simp [List.filter_cons, hok]; omega
    · rw [hdf2, hdf1]
      simp
    · rw [hrc2, hrc1]
    · intro d' hd' hok'
      rcases List.mem_cons.mp hd' with h | h
      · subst h
        exact hmono2 _ (hd_mem hok')
      · exact hpaths2 d' h hok'

/-- Steps 5-7 of `export_all` on a non-empty dashboard list: the loop
runs over every dashboard and `generate_report` writes a report whose
counts reflect the loop's tallies. -/
theorem run_dashboards_spec (env : Env) (dir : FsPath) (incP : Bool)
    (folders : List Folder) (ds : List DashInfo) (st : RunState)
    (hne : ds ≠ []) (hdir : dir ∈ st.fs.dirs)
    (huids : ∀ d ∈ ds, '/' ∉ d.uid) :
    ∃ st', run_dashboards env dir incP folders ds st = (some true, st') ∧
      st'.detailFetched = st.detailFetched ++ ds.map (fun d => d.uid) ∧
      st'.reportCalls = st.reportCalls ++
        [((ds.filter (fun d => detail_ok env d)).length, ds.length)] ∧
      (∃ r : Report, (dir ++ ["export_report.md".data], .report r) ∈ st'.fs.files ∧
        r.exportedCount = (ds.filter (fun d => detail_ok env d)).length ∧
        r.totalCount = ds.length ∧
        r.failedCount = (ds.length : Int) -
          ((ds.filter (fun d => detail_ok env d)).length : Int)) ∧
      (∀ d ∈ ds, detail_ok env d = true →
        dashboard_file_path dir d ∈ st'.fs.files.map Prod.fst) := by
  obtain ⟨st1, heql, hdf1, hrc1, hdir1, hmono1, hpaths1⟩ :=
    export_loop_spec env dir incP ds 0 st hdir huids
  have htc : ds.length ≠ 0 := fun h => hne (List.length_eq_zero.mp h)
  obtain ⟨st2, heqr, hdf2, hrc2, _, hmono2, hrep⟩ :=
    generate_report_spec ((ds.filter (fun d => detail_ok env d)).length) ds.length
      folders dir st1 htc hdir1
  refine ⟨st2, ?_, ?_, ?_, ?_, ?_⟩
  · unfold run_dashboards
    rw [if_neg (by simpa [List.isEmpty_iff] using hne)]
    rw [heql]
    dsimp only
    rw [Nat.zero_add]
    rw [heqr]
  · rw [hdf2, hdf1]
  · rw [hrc2, hrc1]
  · exact ⟨report_content ((ds.filter (fun d => detail_ok env d)).length) ds.length
      folders dir st1.fs, hrep, rfl, rfl, rfl⟩
  · intro d hd hok
    exact hmono2 _ (hpaths1 d hd hok)

/-! ## `export_all` (claims C6, C7, C10) -/

theorem report_name_ne (dir : FsPath) (s : Str)
    (hs : s ≠ "export_report.md".data) :
    dir ++ ["export_report.md".data] ≠ dir ++ [s] := by
  intro h
  have h2 : ["export_report.md".data] = [s] := List.append_cancel_left h
  simp only [List.cons.injEq, and_true] at h2
  exact hs h2.symm

/-- Claim C7: for every discovered dashboard list, failed detail fetches
are tallied as failures, the remaining dashboards are still exported in
order, and the report still runs afterwards with the failures reflected
in its failure count. -/
theorem export_all_tolerates_detail_failures (env : Env) (exportDir : FsPath)
    (incP incD incA : Bool) (tf : Option Str) (ds : List DashInfo)
    (hconn : test_connection env = true)
    (hds : get_dashboards env none tf = ds) (hne : ds ≠ [])
    (huids : ∀ d ∈ ds, '/' ∉ d.uid) :
    ∃ st', export_all env exportDir incP incD incA none tf
        (init_state exportDir) = (some true, st') ∧
      st'.detailFetched = ds.map (fun d => d.uid) ∧
      (∃ r : Report, (exportDir ++ ["export_report.md".data],
          .report r) ∈ st'.fs.files ∧
        r.exportedCount = (ds.filter (fun d => detail_ok env d)).length ∧
        r.totalCount = ds.length ∧
        r.failedCount = (ds.length : Int) -
          ((ds.filter (fun d => detail_ok env d)).length : Int)) ∧
      (∀ d ∈ ds, detail_ok env d = true →
        dashboard_file_path exportDir d ∈ st'.fs.files.map Prod.fst) := by
  have hdir0 : exportDir ∈ (init_fs exportDir).dirs := List.mem_singleton_self _
  obtain ⟨fs1, heqf, hdirs1, _, _⟩ :=
    get_folders_spec env exportDir (init_fs exportDir) hdir0
  have hdir1 : exportDir ∈ fs1.dirs := by rw [hdirs1]; exact hdir0
  obtain ⟨b2, fs2, heq2, hdirs2, _, _⟩ :=
    datasources_stage_spec env exportDir fs1 incD hdir1
  have hdir2 : exportDir ∈ fs2.dirs := by rw [hdirs2]; exact hdir1
  obtain ⟨b3, fs3, heq3, hdirs3, _, _⟩ :=
    alerts_stage_spec env exportDir fs2 incA hdir2
  have hdir3 : exportDir ∈ fs3.dirs := by rw [hdirs3]; exact hdir2
  obtain ⟨st', heq4, hdf, hrc, hrep, hpaths⟩ :=
    run_dashboards_spec env exportDir incP (folders_result env) ds
      { init_state exportDir with fs := fs3 } hne hdir3 huids
  refine ⟨st', ?_, ?_, hrep, hpaths⟩
  · unfold export_all
    rw [if_neg (by simp [hconn])]
    dsimp only [init_state]
    rw [heqf]
    dsimp only
    rw [heq2]
    dsimp only
    rw [heq3]
    dsimp only
    unfold run_search_phase
    dsimp only
    rw [hds]
    exact heq4
  · exact hdf

theorem export_all_tolerates_detail_failures_witness :
    (export_all envOneFails sessionDir false false false none none
      (init_state sessionDir)).1 = some true ∧
    (export_all envOneFails sessionDir false false false none none
      (init_state sessionDir)).2.detailFetched = [dashOpsA.uid, dashOpsB.uid] := by
  obtain ⟨st', h1, h2, _, _⟩ := export_all_tolerates_detail_failures envOneFails
    sessionDir false false false none [dashOpsA, dashOpsB]
    (by decide) rfl (by decide) (by decide)
  rw [h1]
  exact ⟨rfl, h2⟩

/-- Claim C6: each of the fatal conditions — connectivity-check failure,
a (truthy) folder filter naming a folder absent from the folder list,
and an empty dashboard list — makes `export_all` return failure before
any dashboard detail fetch is attempted and before `export_report.md`
is written. -/
theorem export_all_fatal_short_circuit (env : Env) (exportDir : FsPath)
    (incP incD incA : Bool) (ff tf : Option Str)
    (hfatal : test_connection env = false ∨
      (∃ f, ff = some f ∧ f ≠ [] ∧
        ∀ fo ∈ folders_result env, fo.title ≠ f) ∨
      resolved_dashboards env (folders_result env) ff tf = []) :
    ∃ st', export_all env exportDir incP incD incA ff tf
        (init_state exportDir) = (some false, st') ∧
      st'.detailFetched = [] ∧
      exportDir ++ ["export_report.md".data] ∉ st'.fs.files.map Prod.fst := by
  cases hc : test_connection env with
  | false =>
    refine ⟨init_state exportDir, ?_, rfl, ?_⟩
    · unfold export_all
      rw [hc]
      rfl
    · intro hmem
      simp [init_state, init_fs] at hmem
  | true =>
    have hfatal' : (∃ f, ff = some f ∧ f ≠ [] ∧
        ∀ fo ∈ folders_result env, fo.title ≠ f) ∨
        resolved_dashboards env (folders_result env) ff tf = [] := by
      rcases hfatal with h | h | h
      · rw [hc] at h; exact absurd h (by simp)
      · exact Or.inl h
      · exact Or.inr h
    have hdir0 : exportDir ∈ (init_fs exportDir).dirs := List.mem_singleton_self _
    obtain ⟨fs1, heqf, hdirs1, hm1, hrev1⟩ :=
      get_folders_spec env exportDir (init_fs exportDir) hdir0
    have hdir1 : exportDir ∈ fs1.dirs := by rw [hdirs1]; exact hdir0
    obtain ⟨b2, fs2, heq2, hdirs2, hm2, hrev2⟩ :=
      datasources_stage_spec env exportDir fs1 incD hdir1
    have hdir2 : exportDir ∈ fs2.dirs := by rw [hdirs2]; exact hdir1
    obtain ⟨b3, fs3, heq3, hdirs3, hm3, hrev3⟩ :=
      alerts_stage_spec env exportDir fs2 incA hdir2
    have hnorep : exportDir ++ ["export_report.md".data] ∉ fs3.files.map Prod.fst := by
      intro hmem
      rcases hrev3 _ hmem with hq2 | h
      · rcases hrev2 _ hq2 with hq1 | h
        · rcases hrev1 _ hq1 with hq0 | h
          · simp [init_fs] at hq0
          · exact report_name_ne exportDir "folders.json".data (by decide) h
        · exact report_name_ne exportDir "datasources.json".data (by decide) h
      · exact report_name_ne exportDir "alerts.json".data (by decide) h
    have hstages : ∀ rest : RunState → Option Bool × RunState,
        (export_all env exportDir incP incD incA ff tf (init_state exportDir) =
          run_search_phase env exportDir incP (folders_result env) ff tf
            { init_state exportDir with fs := fs3 }) := by
      intro _
      unfold export_all
      rw [if_neg (by simp [hc])]
      dsimp only [init_state]
      rw [heqf]
      dsimp only
      rw [heq2]
      dsimp only
      rw [heq3]
    have hmain := hstages (fun st => (none, st))
    rcases hfatal' with ⟨f, hff, hfne, hnotfound⟩ | hempty
    · have hfind : (folders_result env).find?
          (fun fo => decide (fo.title = f)) = none := by
        rw [List.find?_eq_none]
        intro fo hfo
        simp [hnotfound fo hfo]
      refine ⟨{ init_state exportDir with fs := fs3 }, ?_, rfl, hnorep⟩
      rw [hmain]
      unfold run_search_phase
      rw [hff]
      dsimp only
      rw [if_neg hfne, hfind]
    · cases hffo : ff with
      | none =>
        have hds : get_dashboards env none tf = [] := by
          rw [hffo] at hempty
          simpa [resolved_dashboards] using hempty
        refine ⟨{ init_state exportDir with fs := fs3 }, ?_, rfl, hnorep⟩
        rw [hffo] at hmain
        rw [hmain]
        unfold run_search_phase
        dsimp only
        rw [hds]
        rfl
      | some f =>
        rw [hffo] at hempty
        by_cases hfe : f = []
        · subst hfe
          have hds : get_dashboards env none tf = [] := by
            simpa [resolved_dashboards] using hempty
          refine ⟨{ init_state exportDir with fs := fs3 }, ?_, rfl, hnorep⟩
          rw [hffo] at hmain
          rw [hmain]
          unfold run_search_phase
          dsimp only
          rw [if_pos rfl, hds]
          rfl
        · cases hfind : (folders_result env).find?
              (fun fo => decide (fo.title = f)) with
          | none =>
            refine ⟨{ init_state exportDir with fs := fs3 }, ?_, rfl, hnorep⟩
            rw [hffo] at hmain
            rw [hmain]
            unfold run_search_phase
            dsimp only
            rw [if_neg hfe, hfind]
          | some fo =>
            have hds : get_dashboards env (some fo.id) tf = [] := by
              simpa [resolved_dashboards, hfe, hfind] using hempty
            refine ⟨{ init_state exportDir with fs := fs3 }, ?_, rfl, hnorep⟩
            rw [hffo] at hmain
            rw [hmain]
            unfold run_search_phase
            dsimp only
            rw [if_neg hfe, hfind]
            dsimp only
            rw [hds]
            rfl

theorem export_all_fatal_short_circuit_witness :
    (export_all envOneFolder sessionDir false false false
      (some "Missing".data) none (init_state sessionDir)).1 = some false ∧
    (export_all envOneFolder sessionDir false false false
      (some "Missing".data) none (init_state sessionDir)).2.detailFetched = [] := by
  obtain ⟨st', h1, h2, _⟩ := export_all_fatal_short_circuit envOneFolder sessionDir
    false false false (some "Missing".data) none
    (Or.inr (Or.inl ⟨"Missing".data, rfl, by decide, by decide⟩))
  rw [h1]
  exact ⟨rfl, h2⟩

theorem run_dashboards_report_calls (env : Env) (dir : FsPath) (incP : Bool)
    (folders : List Folder) (ds : List DashInfo) (st : RunState) :
    ∀ c ∈ (run_dashboards env dir incP folders ds st).2.reportCalls,
      c ∈ st.reportCalls ∨ (c.2 = ds.length ∧ ds ≠ []) := by
  unfold run_dashboards
  by_cases he : ds.isEmpty = true
  · rw [if_pos he]
    exact fun c hc => Or.inl hc
  · rw [if_neg he]
    have hne : ds ≠ [] := fun h => he (by rw [h]; rfl)
    intro c hc
    split at hc
    · rename_i ec st' heq
      have h2 : st'.reportCalls = st.reportCalls := by
        have h := export_loop_report_calls env dir incP ds 0 st
        rw [heq] at h
        exact h
      split at hc
      · rename_i u st'' heqr
        have h1 : st''.reportCalls = st'.reportCalls ++ [(ec, ds.length)] := by
          have h := generate_report_calls ec ds.length folders dir st'
          rw [heqr] at h
          exact h
        rw [h1, h2] at hc
        rcases List.mem_append.mp hc with h | h
        · exact Or.inl h
        · right
          have hce : c = (ec, ds.length) := by simpa using h
          exact ⟨by rw [hce], hne⟩
      · rename_i st'' heqr
        have h1 : st''.reportCalls = st'.reportCalls ++ [(ec, ds.length)] := by
          have h := generate_report_calls ec ds.length folders dir st'
          rw [heqr] at h
          exact h
        rw [h1, h2] at hc
        rcases List.mem_append.mp hc with h | h
        · exact Or.inl h
        · right
          have hce : c = (ec, ds.length) := by simpa using h
          exact ⟨by rw [hce], hne⟩
    · rename_i st' heq
      have h2 : st'.reportCalls = st.reportCalls := by
        have h := export_loop_report_calls env dir incP ds 0 st
        rw [heq] at h
        exact h
      rw [h2] at hc
      exact Or.inl hc

theorem run_dashboards_all_calls (env : Env) (dir : FsPath) (incP : Bool)
    (folders : List Folder) (ds : List DashInfo) (st : RunState)
    (hst : st.reportCalls = []) :
    ((run_dashboards env dir incP folders ds st).2.reportCalls).all
      (fun c => decide (1 ≤ c.2)) = true := by
  rw [List.all_eq_true]
  intro c hc
  rcases run_dashboards_report_calls env dir incP folders ds st c hc with h | ⟨h2, hne⟩
  · rw [hst] at h
    simp at h
  · rw [h2]
    exact decide_eq_true (List.length_pos.mpr hne)

/-- Claim C10: whenever `generate_report` is invoked from `export_all`,
the total dashboard count is at least 1 (an empty dashboard list aborts
the run earlier), so `exported_count/total_count` never divides by zero;
calling `generate_report` with a total count of 0 faults
(`ZeroDivisionError`). -/
theorem generate_report_total_positive :
    (∀ (ec : Nat) (folders : List Folder) (dir : FsPath) (st : RunState),
      (generate_report ec 0 folders dir st).1 = none) ∧
    (∀ (env : Env) (dir : FsPath) (incP incD incA : Bool) (ff tf : Option Str),
      ((export_all env dir incP incD incA ff tf (init_state dir)).2.reportCalls).all
        (fun c => decide (1 ≤ c.2)) = true) := by
  constructor
  · exact generate_report_zero_faults
  · intro env dir incP incD incA ff tf
    unfold export_all
    split
    · rfl
    · split
      · rfl
      · split
        · rfl
        · split
          · rfl
          · unfold run_search_phase
            split
            · split
              · exact run_dashboards_all_calls env dir incP _ _ _ rfl
              · split
                · rfl
                · exact run_dashboards_all_calls env dir incP _ _ _ rfl
            · exact run_dashboards_all_calls env dir incP _ _ _ rfl

/-- Claim C9, counterexample: `generate_report` invoked with an
in-memory tally of 1 success out of 2, over a session directory that
contains no JSON file at all, still writes a report whose summary says
1 exported of 2 — so the summary counts come from the in-memory
tallies, not from reading back the directory tree. -/
theorem report_counts_from_memory_counterexample :
    (generate_report 1 2 [] sessionDir (init_state sessionDir)).2.fs.files =
      [(sessionDir ++ ["export_report.md".data],
        .report (report_content 1 2 [] sessionDir (init_fs sessionDir)))] ∧
    (report_content 1 2 [] sessionDir (init_fs sessionDir)).exportedCount = 1 ∧
    (report_content 1 2 [] sessionDir (init_fs sessionDir)).totalCount = 2 ∧
    rglob_json (init_fs sessionDir) sessionDir = [] :=
  ⟨rfl, rfl, rfl, by decide⟩

/-- Claim C9 (amended): the summary counts of `export_report.md`
(folders, total, successes, failures, success rate) are taken from
`generate_report`'s in-memory arguments — they are what the report
records for any state of the disk — while the folder-structure,
file-listing and other-files sections are computed from the directory
tree on disk and do not depend on the tallies. -/
theorem generate_report_summary_sources (ec tc : Nat) (folders : List Folder)
    (dir : FsPath) (st : RunState) (htc : tc ≠ 0) (hdir : dir ∈ st.fs.dirs) :
    ∃ st', generate_report ec tc folders dir st = (some (), st') ∧
      (dir ++ ["export_report.md".data],
        .report (report_content ec tc folders dir st.fs)) ∈ st'.fs.files ∧
      (report_content ec tc folders dir st.fs).exportedCount = ec ∧
      (report_content ec tc folders dir st.fs).totalCount = tc ∧
      (report_content ec tc folders dir st.fs).folderCount = folders.length ∧
      (report_content ec tc folders dir st.fs).failedCount =
        (tc : Int) - (ec : Int) ∧
      (report_content ec tc folders dir st.fs).successRatePercent =
        (ec : Rat) / (tc : Rat) * 100 ∧
      (∀ fs2 : FS,
        (report_content ec tc folders dir fs2).exportedCount = ec ∧
        (report_content ec tc folders dir fs2).totalCount = tc ∧
        (report_content ec tc folders dir fs2).folderCount = folders.length ∧
        (report_content ec tc folders dir fs2).failedCount =
          (tc : Int) - (ec : Int) ∧
        (report_content ec tc folders dir fs2).successRatePercent =
          (ec : Rat) / (tc : Rat) * 100) ∧
      (∀ ec' tc' : Nat,
        (report_content ec' tc' folders dir st.fs).folderStructure =
          (report_content ec tc folders dir st.fs).folderStructure ∧
        (report_content ec' tc' folders dir st.fs).fileListing =
          (report_content ec tc folders dir st.fs).fileListing ∧
        (report_content ec' tc' folders dir st.fs).otherFiles =
          (report_content ec tc folders dir st.fs).otherFiles) := by
  obtain ⟨st', heq, _, _, _, _, hrep⟩ :=
    generate_report_spec ec tc folders dir st htc hdir
  exact ⟨st', heq, hrep, rfl, rfl, rfl, rfl, rfl,
    fun fs2 => ⟨rfl, rfl, rfl, rfl, rfl⟩, fun ec' tc' => ⟨rfl, rfl, rfl⟩⟩

theorem generate_report_summary_sources_witness :
    (generate_report 3 4 [opsFolder] sessionDir (init_state sessionDir)).1 =
      some () ∧
    (report_content 3 4 [opsFolder] sessionDir (init_fs sessionDir)).exportedCount = 3 := by
  obtain ⟨st', heq, hrep, h1, _⟩ := generate_report_summary_sources 3 4 [opsFolder]
    sessionDir (init_state sessionDir) (by decide) (by decide)
  rw [heq]
  exact ⟨rfl, h1⟩

theorem export_config_arrays_witness :
    export_datasources envArrays sessionDir (init_fs sessionDir) =
      (some true,
        overwrite (init_fs sessionDir) (sessionDir ++ ["datasources.json".data])
          (.rawJson (.arr [.num 1]))) :=
  (export_config_arrays envArrays sessionDir (init_fs sessionDir)
    [.num 1] [.num 2] (by decide) rfl (by decide) rfl (by decide)).1

end GrafanaExporter
